import Mathlib

/-!
Verification of the htknx integration layer: the heat-pump datapoint
change-detection logic (`htdatapoint.py`), the fault-notification
throttling logic (`htfaultnotification.py`), and the configuration
validators (`config_validation.py`), shallowly embedded in Lean.

Conventions of the embedding:
* Python numbers are modelled as `ℚ` (timestamps and `timedelta`s as
  rational seconds), Python `None`/exceptions as `Option`.
* The xknx `RemoteValue` collaborator is modelled by its contract: it
  caches one decoded value (`value`); `RemoteValue.process` decodes an
  accepted telegram into that cache, `RemoteValue.set` transmits on the
  bus and updates the cache, and assigning `payload = to_knx(v)` updates
  the cache without transmitting (the encode/decode pair is taken as the
  identity, so payload and value coincide in the model).
* Each operation returns its successor state together with the bus
  transmission it performed (if any) and the log events the claims talk
  about (warning, forwarding).
-/

namespace Htknx

/-- A value carried by a datapoint: the value of a binary
(`RemoteValueSwitch`) or of a numeric (`RemoteValueSensor`) parameter. -/
inductive DPValue where
  | b (v : Bool)
  | n (v : ℚ)
  deriving DecidableEq, Repr

/-- Python `abs` on a rational, written out so that it evaluates by kernel
reduction (it agrees with Mathlib's `|·|`, see `pyAbs_eq_abs`). -/
def pyAbs (q : ℚ) : ℚ := if q < 0 then -q else q

theorem pyAbs_eq_abs (q : ℚ) : pyAbs q = |q| := by
  unfold pyAbs
  rcases lt_or_le q 0 with h | h
  · rw [if_pos h, abs_of_neg h]
  · rw [if_neg (not_lt.mpr h), abs_of_nonneg h]

/-- Numeric view of a datapoint value, following Python where `bool` is a
number (`True == 1`, `False == 0`). -/
def DPValue.toQ : DPValue → ℚ
  | .b true => 1
  | .b false => 0
  | .n q => q

/-- Python `==` between two datapoint values (a bool compares equal to the
corresponding number, as in Python). -/
def pyEq (a c : DPValue) : Bool := a.toQ == c.toQ

/-- Python `==` between a (non-`None`) value and a possibly-`None` cached
value: nothing compares equal to `None`. -/
def pyEqOpt (v : DPValue) : Option DPValue → Bool
  | none => false
  | some w => pyEq v w

/-- State of `HtDataPoint` (htdatapoint.py): configuration flags plus the
cached remote value and the last value actually transmitted. -/
structure HtDataPoint where
  /-- `param_value` is a `RemoteValueSwitch` (i.e. `value_type == "binary"`). -/
  isBinary : Bool
  writable : Bool
  cyclic_sending : Bool
  send_on_change : Bool
  on_change_of : Option ℚ
  /-- the cached `param_value` state (payload/value under the identity codec);
  `none` when unset. -/
  value : Option DPValue
  last_sent_value : Option DPValue
  deriving DecidableEq, Repr

/-- Result of one datapoint operation: successor state, the value
transmitted on the KNX bus by this operation (if any), whether the
non-writable warning was logged, and whether the writable write path that
forwards to the heat pump (`ht_heatpump.set_param_async`, logged in the
source) was reached. -/
structure DPResult where
  dp : HtDataPoint
  sent : Option DPValue
  warned : Bool
  forwarded : Bool
  deriving DecidableEq, Repr

/-- `HtDataPoint.broadcast_value(response)` (htdatapoint.py lines 88-97).
Note the source overwrites the value it just read with a hardcoded
stand-in — `value = True if isinstance(self.param_value, RemoteValueSwitch)
else 123` — on a line marked `# TODO remove!`; the embedding reproduces
this faithfully. -/
def HtDataPoint.broadcast_value (dp : HtDataPoint) (response : Bool) : DPResult :=
  if response || dp.cyclic_sending then
    let _value := dp.value
    let value := some (if dp.isBinary then DPValue.b true else DPValue.n 123)
    match value with
    | none => ⟨dp, none, false, false⟩
    | some v => ⟨{dp with value := some v}, some v, false, false⟩
  else ⟨dp, none, false, false⟩

/-- `HtDataPoint.process_group_read(telegram)` (htdatapoint.py lines
99-102): logs the telegram and broadcasts the current value with
`response=True`. -/
def HtDataPoint.process_group_read (dp : HtDataPoint) (_telegram : Option DPValue) : DPResult :=
  dp.broadcast_value true

/-- `HtDataPoint.process_group_write(telegram)` (htdatapoint.py lines
104-123). The telegram is modelled as `some v` when `param_value.process`
accepts and decodes it to `v` (updating the cached remote value), `none`
when it rejects it. -/
def HtDataPoint.process_group_write (dp : HtDataPoint) (telegram : Option DPValue) : DPResult :=
  match telegram with
  | none => ⟨dp, none, false, false⟩
  | some v =>
    let dp' := {dp with value := some v}
    if !dp'.writable then
      ⟨dp', none, true, false⟩
    else
      ⟨{dp' with value := some v}, none, false, true⟩

/-- `HtDataPoint.set(value)` (htdatapoint.py lines 125-151). -/
def HtDataPoint.set (dp : HtDataPoint) (value : Option DPValue) : DPResult :=
  match value with
  | none => ⟨dp, none, false, false⟩
  | some v =>
    if dp.isBinary && !(pyEqOpt v dp.value) then
      if dp.send_on_change then
        ⟨{dp with value := some v, last_sent_value := some v}, some v, false, false⟩
      else
        ⟨{dp with value := some v}, none, false, false⟩
    else if !dp.isBinary && !(pyEqOpt v dp.value) then
      if dp.send_on_change &&
          (match dp.on_change_of, dp.last_sent_value with
           | none, _ => true
           | some _, none => true
           | some c, some w => decide (pyAbs c ≤ pyAbs (v.toQ - w.toQ))) then
        ⟨{dp with value := some v, last_sent_value := some v}, some v, false, false⟩
      else
        ⟨{dp with value := some v}, none, false, false⟩
    else ⟨dp, none, false, false⟩

/-- **C1** (evidence for the code bug): the spec says `broadcast_value`
reads the current underlying value, transmits it, and is a no-op when the
underlying value is unset; the code instead overwrites the value it read
with a hardcoded stand-in (marked `# TODO remove!` in the source).
Evaluated at the failing input — a numeric datapoint whose underlying value
is unset (`None`), with cyclic sending enabled — the code transmits `123`
instead of doing nothing; and with an underlying value of `5` it still
transmits `123`, not the value it read. -/
theorem broadcast_value_transmits_standin :
    (HtDataPoint.broadcast_value
        ⟨false, false, true, false, none, none, none⟩ true).sent
      = some (DPValue.n 123)
    ∧ (HtDataPoint.broadcast_value
        ⟨false, false, true, false, none, some (DPValue.n 5), none⟩ true).sent
      = some (DPValue.n 123) :=
  ⟨rfl, rfl⟩

/-- **C2**: for a numeric (sensor) datapoint with `send_on_change` enabled
and a new value differing from the cached value, `set(value)` transmits and
records `value` as `last_sent_value` exactly when `on_change_of` is unset,
or no prior transmission is recorded, or `|value - last_sent_value|` is at
least the configured threshold; otherwise it only updates the cached
payload without transmitting. (Thresholds are magnitudes, hence the
nonnegativity hypothesis; the source compares against `abs(on_change_of)`.) -/
theorem set_numeric_send_on_change (dp : HtDataPoint) (v : DPValue)
    (hbin : dp.isBinary = false) (hsoc : dp.send_on_change = true)
    (hne : pyEqOpt v dp.value = false)
    (hpos : ∀ c : ℚ, dp.on_change_of = some c → 0 ≤ c) :
    ((dp.set (some v)).sent = some v
        ∧ (dp.set (some v)).dp.last_sent_value = some v
      ↔ dp.on_change_of = none ∨ dp.last_sent_value = none
        ∨ ∃ c w, dp.on_change_of = some c ∧ dp.last_sent_value = some w
            ∧ c ≤ |v.toQ - w.toQ|)
    ∧ (∀ c w, dp.on_change_of = some c → dp.last_sent_value = some w →
        |v.toQ - w.toQ| < c →
        dp.set (some v) = ⟨{dp with value := some v}, none, false, false⟩) := by
  simp only [HtDataPoint.set]
  rw [hbin, hne, hsoc]
  simp only [Bool.not_false, Bool.false_and, Bool.true_and, Bool.not_true,
    Bool.false_eq_true, if_false, Bool.not_false, Bool.true_and, if_true]
  rcases hoc : dp.on_change_of with _ | c
  · simp
  · rcases hlsv : dp.last_sent_value with _ | w
    · simp
    · have hc : 0 ≤ c := hpos c hoc
      dsimp only
      rw [pyAbs_eq_abs, pyAbs_eq_abs, abs_of_nonneg hc]
      by_cases hcw : c ≤ |v.toQ - w.toQ|
      · rw [if_pos (decide_eq_true hcw)]
        constructor
        · constructor
          · intro _
            exact Or.inr (Or.inr ⟨c, w, rfl, rfl, hcw⟩)
          · intro _
            exact ⟨rfl, rfl⟩
        · intro c' w' hc' hw' hlt
          injection hc' with h1
          injection hw' with h2
          subst h1; subst h2
          exact absurd hcw (not_le.mpr hlt)
      · rw [if_neg (fun h => hcw (of_decide_eq_true h))]
        constructor
        · constructor
          · rintro ⟨h, -⟩
            cases h
          · rintro (h | h | ⟨c', w', hc', hw', hle⟩)
            · cases h
            · cases h
            · injection hc' with h1
              injection hw' with h2
              subst h1; subst h2
              exact absurd hle hcw
        · intro c' w' hc' hw' _
          rfl

/-- **C3**: an inbound group-write telegram accepted by the payload decoder
of a datapoint whose `writable` flag is false leaves `last_sent_value`
unchanged and logs a warning (and nothing is transmitted). -/
theorem process_group_write_nonwritable (dp : HtDataPoint) (v : DPValue)
    (hw : dp.writable = false) :
    (dp.process_group_write (some v)).dp.last_sent_value = dp.last_sent_value
    ∧ (dp.process_group_write (some v)).warned = true
    ∧ (dp.process_group_write (some v)).sent = none := by
  simp [HtDataPoint.process_group_write, hw]

/-- **C4** (invariant): `last_sent_value` is updated only in an operation
step that actually transmits a value on the bus: a non-transmitting `set`
leaves it unchanged, and `process_group_write`, `process_group_read` and
`broadcast_value` leave it unchanged in every run (so in particular in
every non-transmitting run). -/
theorem last_sent_value_only_on_transmit (dp : HtDataPoint)
    (v t r : Option DPValue) (resp : Bool) :
    ((dp.set v).sent = none →
        (dp.set v).dp.last_sent_value = dp.last_sent_value)
    ∧ (dp.process_group_write t).dp.last_sent_value = dp.last_sent_value
    ∧ (dp.process_group_read r).dp.last_sent_value = dp.last_sent_value
    ∧ (dp.broadcast_value resp).dp.last_sent_value = dp.last_sent_value := by
  refine ⟨?_, ?_, ?_, ?_⟩
  · rcases v with _ | v
    · intro _; rfl
    · simp only [HtDataPoint.set]
      split_ifs <;> intro hs <;> simp_all
  · rcases t with _ | v
    · rfl
    · simp only [HtDataPoint.process_group_write]
      split_ifs <;> rfl
  · simp only [HtDataPoint.process_group_read, HtDataPoint.broadcast_value]
    split_ifs <;> rfl
  · simp only [HtDataPoint.broadcast_value]
    split_ifs <;> rfl

/-- Witness for **C2**, at the configuration of the spec's example:
`on_change_of = 2`, `last_sent_value = 10` (and cached value 10):
`set(12)` transmits and records 12 as last sent, while `set(11)` only
updates the cached payload, transmitting nothing and leaving
`last_sent_value` at 10. -/
theorem set_numeric_send_on_change_witness :
    ((HtDataPoint.set ⟨false, false, false, true, some 2, some (.n 10), some (.n 10)⟩
        (some (.n 12))).sent = some (.n 12)
      ∧ (HtDataPoint.set ⟨false, false, false, true, some 2, some (.n 10), some (.n 10)⟩
        (some (.n 12))).dp.last_sent_value = some (.n 12))
    ∧ HtDataPoint.set ⟨false, false, false, true, some 2, some (.n 10), some (.n 10)⟩
        (some (.n 11))
      = ⟨⟨false, false, false, true, some 2, some (.n 11), some (.n 10)⟩,
          none, false, false⟩ := by
  constructor
  · exact (set_numeric_send_on_change _ (.n 12) rfl rfl
      (by norm_num [pyEqOpt, pyEq, DPValue.toQ])
      (fun c hc => by injection hc with h; subst h; norm_num)).1.mpr
      (Or.inr (Or.inr ⟨2, .n 10, rfl, rfl, by
        rw [le_abs]; left; norm_num [DPValue.toQ]⟩))
  · exact (set_numeric_send_on_change _ (.n 11) rfl rfl
      (by norm_num [pyEqOpt, pyEq, DPValue.toQ])
      (fun c hc => by injection hc with h; subst h; norm_num)).2 2 (.n 10) rfl rfl
      (by rw [abs_lt]; constructor <;> norm_num [DPValue.toQ])

/-- Witness for **C3**: a concrete non-writable datapoint receiving a
decoded group write keeps `last_sent_value` (here `none`) and warns. -/
theorem process_group_write_nonwritable_witness :
    (HtDataPoint.process_group_write ⟨false, false, false, false, none, none, none⟩
        (some (.n 7))).dp.last_sent_value = none
    ∧ (HtDataPoint.process_group_write ⟨false, false, false, false, none, none, none⟩
        (some (.n 7))).warned = true
    ∧ (HtDataPoint.process_group_write ⟨false, false, false, false, none, none, none⟩
        (some (.n 7))).sent = none :=
  process_group_write_nonwritable ⟨false, false, false, false, none, none, none⟩ (.n 7) rfl

/-- Witness for **C4**, at a concrete datapoint whose `set` does not
transmit (send-on-change disabled). -/
theorem last_sent_value_only_on_transmit_witness :
    (HtDataPoint.set ⟨false, false, false, false, none, none, some (.n 3)⟩
        (some (.n 1))).dp.last_sent_value = some (.n 3)
    ∧ (HtDataPoint.process_group_write ⟨false, false, false, false, none, none, some (.n 3)⟩
        (some (.n 2))).dp.last_sent_value = some (.n 3)
    ∧ (HtDataPoint.process_group_read ⟨false, false, false, false, none, none, some (.n 3)⟩
        none).dp.last_sent_value = some (.n 3)
    ∧ (HtDataPoint.broadcast_value ⟨false, false, false, false, none, none, some (.n 3)⟩
        false).dp.last_sent_value = some (.n 3) := by
  obtain ⟨h1, h2, h3, h4⟩ := last_sent_value_only_on_transmit
    ⟨false, false, false, false, none, none, some (.n 3)⟩
    (some (.n 1)) (some (.n 2)) none false
  exact ⟨h1 (by norm_num [HtDataPoint.set, pyEqOpt, pyEq, DPValue.toQ]), h2, h3, h4⟩

/-- **C10**: for every accepted inbound group-write telegram, the decode
step updates the cached value before the writability check runs — so even a
write rejected as non-writable leaves the cache changed to the incoming
payload; the `writable` flag only gates the forwarding to the heat pump and
the warning, and nothing is echoed back onto the bus. -/
theorem process_group_write_cache_updated_first (dp : HtDataPoint) (v : DPValue) :
    (dp.process_group_write (some v)).dp.value = some v
    ∧ ((dp.process_group_write (some v)).warned = true ↔ dp.writable = false)
    ∧ ((dp.process_group_write (some v)).forwarded = true ↔ dp.writable = true)
    ∧ (dp.process_group_write (some v)).sent = none := by
  unfold HtDataPoint.process_group_write
  by_cases h : dp.writable <;> simp [h]

/-! ## Fault notification (htfaultnotification.py)

Timestamps (`datetime`) and durations (`timedelta`) are rational seconds.
A tick (`HtFaultNotification.do`) consults two external async queries and
emits through `Notification.set`; each of these may raise, which the
`except` clause catches and logs. Raising is modelled by `none` (for the
queries) / a flag (for the emission). `do` is a Lean keyword, so the
embedding of the `do` method is named `doTick`. -/

/-- State of `HtFaultNotification` (`__init__`, htfaultnotification.py
lines 21-35): `repeat_after` as configured, `last_sent_at = None`,
`in_error = False`. -/
structure HtFaultNotification where
  repeat_after : Option ℚ
  last_sent_at : Option ℚ
  in_error : Bool
  deriving DecidableEq, Repr

/-- `HtFaultNotification.__init__`: fresh state for a given `repeat_after`. -/
def HtFaultNotification.init (repeat_after : Option ℚ) : HtFaultNotification :=
  ⟨repeat_after, none, false⟩

/-- The environment one tick runs against: the two external queries
(`none` models the call raising), whether `self.set(msg)` raises, and the
values of the two `datetime.now()` calls (the first is used in the
elapsed-time comparison, the second is stored into `last_sent_at`). -/
structure FNInput where
  in_error_async : Option Bool
  get_last_fault_async : Option (ℤ × ℤ × ℚ × String)
  emit_ok : Bool
  now₁ : ℚ
  now₂ : ℚ
  deriving DecidableEq, Repr

/-- Result of one tick: successor state, the notification text emitted (if
any), whether an exception was caught and logged, and whether the
elapsed-time comparison was reached with `last_sent_at = None` (in Python a
`TypeError`, which the `except` clause would catch). -/
structure FNResult where
  st : HtFaultNotification
  emitted : Option String
  caught : Bool
  noneCompare : Bool
  deriving DecidableEq, Repr

/-- `HtFaultNotification.do` (htfaultnotification.py lines 47-63). The
announce condition mirrors the source's short-circuit evaluation of
`not self.in_error or (self.repeat_after is not None and
datetime.now() - self.last_sent_at >= self.repeat_after)`. -/
def HtFaultNotification.doTick (fn : HtFaultNotification) (inp : FNInput) : FNResult :=
  match inp.in_error_async with
  | none => ⟨fn, none, true, false⟩
  | some inerr =>
    if inerr then
      let cond : Option Bool :=
        if !fn.in_error then some true
        else match fn.repeat_after with
          | none => some false
          | some d =>
            match fn.last_sent_at with
            | none => none
            | some t => some (decide (d ≤ inp.now₁ - t))
      match cond with
      | none => ⟨fn, none, true, true⟩
      | some false => ⟨fn, none, false, false⟩
      | some true =>
        match inp.get_last_fault_async with
        | none => ⟨fn, none, true, false⟩
        | some (_idx, _err, _dt, msg) =>
          if inp.emit_ok then
            ⟨⟨fn.repeat_after, some inp.now₂, true⟩, some msg, false, false⟩
          else ⟨fn, none, true, false⟩
    else ⟨{fn with in_error := false}, none, false, false⟩

/-- **C5**: on a tick while the external in-error flag stays true and the
fault was already announced (`in_error = true`): with `repeat_after = None`
the tick never re-emits (and changes nothing); with `repeat_after = d`, a
tick at least `d` after `last_sent_at` re-emits the latest fault message
and updates `last_sent_at` to now, while a tick less than `d` after
`last_sent_at` emits nothing (and changes nothing). -/
theorem fault_repeat_throttling (fn : HtFaultNotification) (inp : FNInput)
    (i e : ℤ) (dt : ℚ) (msg : String)
    (herr : fn.in_error = true) (hq : inp.in_error_async = some true)
    (hf : inp.get_last_fault_async = some (i, e, dt, msg))
    (hemit : inp.emit_ok = true) :
    (fn.repeat_after = none → fn.doTick inp = ⟨fn, none, false, false⟩)
    ∧ (∀ d t, fn.repeat_after = some d → fn.last_sent_at = some t →
        d ≤ inp.now₁ - t →
        fn.doTick inp
          = ⟨⟨fn.repeat_after, some inp.now₂, true⟩, some msg, false, false⟩)
    ∧ (∀ d t, fn.repeat_after = some d → fn.last_sent_at = some t →
        inp.now₁ - t < d → fn.doTick inp = ⟨fn, none, false, false⟩) := by
  unfold HtFaultNotification.doTick
  rw [hq, herr]
  refine ⟨?_, ?_, ?_⟩
  · intro hra
    rw [hra]
    rfl
  · intro d t hra hlsa hd
    rw [hra, hlsa, hf, hemit]
    simp [decide_eq_true hd]
  · intro d t hra hlsa hd
    rw [hra, hlsa]
    simp [decide_eq_false (not_le.mpr hd)]

/-- Witness for **C5**: `repeat_after` of one hour (3600 s), last announced
at time 0, still in error. A tick at two hours (7200 s) re-emits "fault"
and moves `last_sent_at` to the tick's time; a tick at ten minutes (600 s)
emits nothing; and with `repeat_after = None` a later tick never re-emits. -/
theorem fault_repeat_throttling_witness :
    HtFaultNotification.doTick ⟨some 3600, some 0, true⟩
        ⟨some true, some (1, 2, 0, "fault"), true, 7200, 7200⟩
      = ⟨⟨some 3600, some 7200, true⟩, some "fault", false, false⟩
    ∧ HtFaultNotification.doTick ⟨some 3600, some 0, true⟩
        ⟨some true, some (1, 2, 0, "fault"), true, 600, 600⟩
      = ⟨⟨some 3600, some 0, true⟩, none, false, false⟩
    ∧ HtFaultNotification.doTick ⟨none, some 0, true⟩
        ⟨some true, some (1, 2, 0, "fault"), true, 7200, 7200⟩
      = ⟨⟨none, some 0, true⟩, none, false, false⟩ := by
  refine ⟨?_, ?_, ?_⟩
  · exact (fault_repeat_throttling _ _ 1 2 0 "fault" rfl rfl rfl rfl).2.1
      3600 0 rfl rfl (by norm_num)
  · exact (fault_repeat_throttling _ _ 1 2 0 "fault" rfl rfl rfl rfl).2.2
      3600 0 rfl rfl (by norm_num)
  · exact (fault_repeat_throttling _ _ 1 2 0 "fault" rfl rfl rfl rfl).1 rfl

/-- **C6**: whenever a tick catches an exception, the state (`in_error`,
`last_sent_at`, `repeat_after`) is exactly as before the tick and nothing
is emitted; and each failure site — the in-error query, the last-fault
fetch, the emission — does lead to a caught exception when reached. -/
theorem fault_tick_exception_safe (fn : HtFaultNotification) (inp : FNInput) :
    ((fn.doTick inp).caught = true →
        (fn.doTick inp).st = fn ∧ (fn.doTick inp).emitted = none)
    ∧ (inp.in_error_async = none → (fn.doTick inp).caught = true)
    ∧ (fn.in_error = false → inp.in_error_async = some true →
        inp.get_last_fault_async = none → (fn.doTick inp).caught = true)
    ∧ (fn.in_error = false → inp.in_error_async = some true →
        inp.get_last_fault_async ≠ none → inp.emit_ok = false →
        (fn.doTick inp).caught = true) := by
  unfold HtFaultNotification.doTick
  refine ⟨?_, ?_, ?_, ?_⟩
  · rcases inp.in_error_async with _ | inerr
    · intro _
      exact ⟨rfl, rfl⟩
    · cases inerr
      · intro h
        cases h
      · dsimp only
        rcases hc : (if !fn.in_error then some true
            else match fn.repeat_after with
              | none => some false
              | some d =>
                match fn.last_sent_at with
                | none => none
                | some t => some (decide (d ≤ inp.now₁ - t))) with _ | b
        · intro _
          exact ⟨rfl, rfl⟩
        · cases b
          · intro h
            cases h
          · rcases inp.get_last_fault_async with _ | ⟨i, e, dt, msg⟩
            · intro _
              exact ⟨rfl, rfl⟩
            · dsimp only
              rcases he : inp.emit_ok with _ | _
              · intro _
                exact ⟨rfl, rfl⟩
              · intro h
                cases h
  · intro hq
    rw [hq]
  · intro herr hq hf
    rw [hq, herr, hf]
    rfl
  · intro herr hq hf hemit
    rw [hq, herr]
    rcases hfv : inp.get_last_fault_async with _ | ⟨i, e, dt, msg⟩
    · exact absurd hfv hf
    · rw [hemit]
      rfl

/-- Witness for **C6**: a failing in-error query, a failing last-fault
fetch, and a failing emission each leave the concrete state
`⟨repeat_after = None, last_sent_at = None, in_error = false⟩` untouched,
emit nothing, and are recorded as caught. -/
theorem fault_tick_exception_safe_witness :
    ((HtFaultNotification.doTick ⟨none, none, false⟩
        ⟨none, some (1, 2, 0, "fault"), true, 5, 5⟩).st = ⟨none, none, false⟩
      ∧ (HtFaultNotification.doTick ⟨none, none, false⟩
        ⟨none, some (1, 2, 0, "fault"), true, 5, 5⟩).emitted = none)
    ∧ (HtFaultNotification.doTick ⟨none, none, false⟩
        ⟨some true, none, true, 5, 5⟩).caught = true
    ∧ (HtFaultNotification.doTick ⟨none, none, false⟩
        ⟨some true, some (1, 2, 0, "fault"), false, 5, 5⟩).caught = true := by
  refine ⟨?_, ?_, ?_⟩
  · exact (fault_tick_exception_safe ⟨none, none, false⟩
      ⟨none, some (1, 2, 0, "fault"), true, 5, 5⟩).1
      ((fault_tick_exception_safe ⟨none, none, false⟩
        ⟨none, some (1, 2, 0, "fault"), true, 5, 5⟩).2.1 rfl)
  · exact (fault_tick_exception_safe ⟨none, none, false⟩
      ⟨some true, none, true, 5, 5⟩).2.2.1 rfl rfl rfl
  · exact (fault_tick_exception_safe ⟨none, none, false⟩
      ⟨some true, some (1, 2, 0, "fault"), false, 5, 5⟩).2.2.2 rfl rfl
      (by simp) rfl

/-- The implicit invariant of **C9**: whenever `in_error` is true, a
timestamp has been recorded in `last_sent_at`. -/
def FNInv (fn : HtFaultNotification) : Prop :=
  fn.in_error = true → fn.last_sent_at ≠ none

/-- A tick leaves the state alone, clears `in_error`, or announces a fault
(setting `in_error` together with a fresh `last_sent_at`). -/
theorem doTick_st_cases (fn : HtFaultNotification) (inp : FNInput) :
    (fn.doTick inp).st = fn
    ∨ (fn.doTick inp).st = {fn with in_error := false}
    ∨ (fn.doTick inp).st = ⟨fn.repeat_after, some inp.now₂, true⟩ := by
  unfold HtFaultNotification.doTick
  rcases inp.in_error_async with _ | inerr
  · left; rfl
  · cases inerr
    · right; left; rfl
    · dsimp only
      rw [if_pos rfl]
      split
      · left; rfl
      · left; rfl
      · split
        · left; rfl
        · split
          · right; right; rfl
          · left; rfl

/-- Under the invariant `in_error → last_sent_at ≠ None`, the elapsed-time
comparison is never reached with a missing timestamp. -/
theorem doTick_noneCompare_false (fn : HtFaultNotification) (inp : FNInput)
    (hinv : fn.in_error = true → fn.last_sent_at ≠ none) :
    (fn.doTick inp).noneCompare = false := by
  unfold HtFaultNotification.doTick
  rcases inp.in_error_async with _ | inerr
  · rfl
  · cases inerr
    · rfl
    · dsimp only
      rw [if_pos rfl]
      split
      · rename_i heq
        exfalso
        rcases herr : fn.in_error with _ | _
        · rw [herr] at heq
          simp at heq
        · rw [herr] at heq
          rcases hra : fn.repeat_after with _ | d
          · rw [hra] at heq
            simp at heq
          · rw [hra] at heq
            rcases hlsa : fn.last_sent_at with _ | t
            · exact hinv herr hlsa
            · rw [hlsa] at heq
              simp at heq
      · rfl
      · split
        · rfl
        · split <;> rfl

/-- **C9**: the invariant `in_error → last_sent_at ≠ None` holds for the
freshly constructed state and is preserved by every tick; consequently no
tick ever reaches the elapsed-time comparison with `last_sent_at = None`
(`noneCompare` stays false). -/
theorem fault_in_error_timestamp_invariant (ra : Option ℚ)
    (fn : HtFaultNotification) (inp : FNInput) (hinv : FNInv fn) :
    FNInv (HtFaultNotification.init ra)
    ∧ FNInv (fn.doTick inp).st
    ∧ (fn.doTick inp).noneCompare = false := by
  refine ⟨?_, ?_, doTick_noneCompare_false fn inp hinv⟩
  · intro h
    cases h
  · rcases doTick_st_cases fn inp with h | h | h <;> rw [h]
    · exact hinv
    · intro hh
      simp at hh
    · intro _
      simp

/-- Witness for **C9**: the invariant holds for a concrete in-error state
with a recorded timestamp, is preserved by a concrete tick, and that tick
never compares against a missing timestamp. -/
theorem fault_in_error_timestamp_invariant_witness :
    FNInv (HtFaultNotification.init (some 60))
    ∧ FNInv (HtFaultNotification.doTick ⟨some 60, some 10, true⟩
        ⟨some true, some (1, 2, 0, "fault"), true, 100, 100⟩).st
    ∧ (HtFaultNotification.doTick ⟨some 60, some 10, true⟩
        ⟨some true, some (1, 2, 0, "fault"), true, 100, 100⟩).noneCompare
      = false :=
  fault_in_error_timestamp_invariant (some 60) ⟨some 60, some 10, true⟩
    ⟨some true, some (1, 2, 0, "fault"), true, 100, 100⟩
    (fun _ => by simp)

/-! ## Configuration validators (config_validation.py)

Strings are processed as `List Char`. Python's `int()` and `float()` are
modelled on plain decimal literals (optional surrounding whitespace,
optional sign, digits, and for `float` an optional fraction part); Python
extras such as underscore digit separators, exponents, `inf`/`nan` and
non-ASCII digits are outside the model. `timedelta`s are rational seconds,
with decimal fractions represented exactly. A raised `vol.Invalid` (or
`ValueError` propagated to one) is `none`. -/

/-- A raw configuration scalar as the validators see it. Python's `bool`
is both an `int` and a `Number`; it is a separate constructor because
`boolean` tests `isinstance(value, bool)` before `Number`, while
`time_period_str`'s `isinstance(value, int)` guard catches it like any
other non-string. `num` covers the remaining numbers (int/float). -/
inductive PyValue where
  | bool (b : Bool)
  | num (q : ℚ)
  | str (s : String)
  | other
  deriving DecidableEq, Repr

/-- Both-ends whitespace trim on a character list, modelling Python's
`str.strip()` and the whitespace tolerance of `int()`/`float()`. -/
def trimWs (cs : List Char) : List Char :=
  ((cs.dropWhile Char.isWhitespace).reverse.dropWhile Char.isWhitespace).reverse

/-- Numeric value of a decimal digit string, most significant digit
first. -/
def digitsVal (cs : List Char) : ℕ :=
  cs.foldl (fun a c => 10 * a + (c.toNat - 48)) 0

/-- One or more decimal digits and nothing else. -/
def isDigits (cs : List Char) : Bool :=
  !cs.isEmpty && cs.all Char.isDigit

/-- Model of Python `int(s)` on decimal string literals: optional
surrounding whitespace, an optional sign, then one or more digits. -/
def pyInt (s : List Char) : Option ℤ :=
  match trimWs s with
  | [] => none
  | c :: rest =>
    if c = '-' then
      if isDigits rest then some (-(digitsVal rest : ℤ)) else none
    else if c = '+' then
      if isDigits rest then some (digitsVal rest : ℤ) else none
    else if isDigits (c :: rest) then some (digitsVal (c :: rest) : ℤ)
    else none

/-- Magnitude part of a Python float literal: `digits`, `digits.`,
`.digits` or `digits.digits`. -/
def pyFloatMag (cs : List Char) : Option ℚ :=
  let ip := cs.takeWhile Char.isDigit
  match cs.dropWhile Char.isDigit with
  | [] => if ip.isEmpty then none else some (digitsVal ip : ℚ)
  | c :: fp =>
    if c = '.' then
      if fp.all Char.isDigit && !(ip.isEmpty && fp.isEmpty) then
        some ((digitsVal ip : ℚ) + (digitsVal fp : ℚ) / 10 ^ fp.length)
      else none
    else none

/-- Model of Python `float(s)` on plain decimal literals. -/
def pyFloat (s : List Char) : Option ℚ :=
  match trimWs s with
  | [] => none
  | c :: rest =>
    if c = '-' then (pyFloatMag rest).map (fun q => -q)
    else if c = '+' then pyFloatMag rest
    else pyFloatMag (c :: rest)

/-- Python's `str.split(sep)` for a one-character separator. -/
def splitOnChar (sep : Char) : List Char → List (List Char)
  | [] => [[]]
  | c :: cs =>
    match splitOnChar sep cs with
    | [] => [[]]
    | g :: gs => if c = sep then [] :: g :: gs else (c :: g) :: gs

/-- The sign-stripping prelude of `time_period_str`:
`value.startswith("-")` / `value.startswith("+")` and the slice
`value[1:]`. -/
def stripSign (cs : List Char) : Bool × List Char :=
  match cs with
  | [] => (false, [])
  | c :: rest =>
    if c = '-' then (true, rest)
    else if c = '+' then (false, rest)
    else (false, c :: rest)

/-- `timedelta(hours=h, minutes=m, seconds=s)` as rational seconds. -/
def timedeltaSecs (hours minutes : ℤ) (seconds : ℚ) : ℚ :=
  3600 * hours + 60 * minutes + seconds

/-- `time_period_str` (config_validation.py lines 64-96): reject
non-strings (`int`s — "make sure you wrap time values in quotes" — and
`bool`s, which are `int`s in Python, included); strip an optional sign;
split on `":"` into 2 or 3 fields; convert the fields with `int()` /
`float()` (a missing third field means 0 seconds); combine into a
`timedelta` and negate it if the sign was `-`. -/
def time_period_str (value : PyValue) : Option ℚ :=
  match value with
  | .bool _ => none
  | .num _ => none
  | .other => none
  | .str s =>
    match stripSign s.toList with
    | (negative_offset, cs) =>
      match splitOnChar ':' cs with
      | [h, m] =>
        match pyInt h, pyInt m with
        | some hour, some minute =>
          let offset := timedeltaSecs hour minute 0
          some (if negative_offset then -offset else offset)
        | _, _ => none
      | [h, m, sec] =>
        match pyInt h, pyInt m, pyFloat sec with
        | some hour, some minute, some second =>
          let offset := timedeltaSecs hour minute second
          some (if negative_offset then -offset else offset)
        | _, _, _ => none
      | _ => none

/-- The seconds-field shapes `SS` and `SS.f` of the specification's
`HH:MM:SS[.f]` duration form. -/
def specSecondsForm (cs : List Char) : Bool :=
  match splitOnChar '.' cs with
  | [a] => isDigits a
  | [a, b] => isDigits a && isDigits b
  | _ => false

/-- The claim's "valid duration string" form: an optional `+`/`-` prefix
followed by `HH:MM` or `HH:MM:SS[.f]` with all-digit fields. -/
def specDurationForm (s : String) : Bool :=
  match stripSign s.toList with
  | (_, cs) =>
    match splitOnChar ':' cs with
    | [h, m] => isDigits h && isDigits m
    | [h, m, sec] => isDigits h && isDigits m && specSecondsForm sec
    | _ => false

/-- The optional seconds component of a valid duration string, as the pair
(seconds digits, optional fraction digits). -/
def secChars : Option (List Char × Option (List Char)) → List Char
  | none => []
  | some (a, none) => ':' :: a
  | some (a, some b) => ':' :: (a ++ '.' :: b)

/-- Well-formedness of the optional seconds component: all-digit fields. -/
def secWellFormed : Option (List Char × Option (List Char)) → Bool
  | none => true
  | some (a, none) => isDigits a
  | some (a, some b) => isDigits a && isDigits b

/-- Value in seconds of the optional seconds component. -/
def secVal : Option (List Char × Option (List Char)) → ℚ
  | none => 0
  | some (a, none) => (digitsVal a : ℚ)
  | some (a, some b) => (digitsVal a : ℚ) + (digitsVal b : ℚ) / 10 ^ b.length

/-- A decimal digit is none of the characters the duration parser treats
specially, and is not whitespace. -/
theorem isDigit_facts (c : Char) (h : c.isDigit = true) :
    c ≠ '-' ∧ c ≠ '+' ∧ c ≠ ':' ∧ c ≠ '.' ∧ c.isWhitespace = false := by
  refine ⟨?_, ?_, ?_, ?_, ?_⟩
  · rintro rfl; exact absurd h (by decide)
  · rintro rfl; exact absurd h (by decide)
  · rintro rfl; exact absurd h (by decide)
  · rintro rfl; exact absurd h (by decide)
  · rcases hw : c.isWhitespace with _ | _
    · rfl
    · exfalso
      have := hw
      simp only [Char.isWhitespace, Bool.or_eq_true, decide_eq_true_eq] at this
      rcases this with ((rfl | rfl) | rfl) | rfl <;> exact absurd h (by decide)

/-- Unfolding of `isDigits`. -/
theorem isDigits_iff (cs : List Char) :
    isDigits cs = true ↔ cs ≠ [] ∧ ∀ c ∈ cs, c.isDigit = true := by
  simp [isDigits]

/-- Splitting a true boolean conjunction. -/
theorem and_true_split {a b : Bool} (h : (a && b) = true) :
    a = true ∧ b = true := by
  simp at h
  exact h

/-- `dropWhile` is the identity when no element satisfies the predicate. -/
theorem dropWhile_eq_self_of_none (p : Char → Bool) (cs : List Char)
    (h : ∀ c ∈ cs, p c = false) : cs.dropWhile p = cs := by
  cases cs with
  | nil => rfl
  | cons c rest => simp [List.dropWhile_cons, h c (List.mem_cons_self c rest)]

/-- `trimWs` is the identity on whitespace-free strings. -/
theorem trimWs_eq_self (cs : List Char)
    (h : ∀ c ∈ cs, c.isWhitespace = false) : trimWs cs = cs := by
  unfold trimWs
  rw [dropWhile_eq_self_of_none _ _ h,
    dropWhile_eq_self_of_none _ _ (fun c hc => h c (List.mem_reverse.mp hc)),
    List.reverse_reverse]

/-- On an all-digit, nonempty string, the `int()` model returns the digit
value. -/
theorem pyInt_digits (cs : List Char) (h : isDigits cs = true) :
    pyInt cs = some (digitsVal cs : ℤ) := by
  obtain ⟨hne, hall⟩ := and_true_split h
  have hmem : ∀ c ∈ cs, c.isDigit = true := List.all_eq_true.mp hall
  have htrim : trimWs cs = cs :=
    trimWs_eq_self cs (fun c hc => (isDigit_facts c (hmem c hc)).2.2.2.2)
  unfold pyInt
  rw [htrim]
  rcases cs with _ | ⟨c, rest⟩
  · simp at hne
  · have hc := hmem c (List.mem_cons_self c rest)
    dsimp only
    rw [if_neg (isDigit_facts c hc).1, if_neg (isDigit_facts c hc).2.1,
      if_pos h]

/-- `takeWhile`/`dropWhile` on an all-`p` prefix followed by a failing
element. -/
theorem takeWhile_dropWhile_append (p : Char → Bool) (xs : List Char)
    (y : Char) (ys : List Char)
    (hx : ∀ c ∈ xs, p c = true) (hy : p y = false) :
    (xs ++ y :: ys).takeWhile p = xs
    ∧ (xs ++ y :: ys).dropWhile p = y :: ys := by
  induction xs with
  | nil => simp [List.takeWhile_cons, List.dropWhile_cons, hy]
  | cons c cs ih =>
    have hc := hx c (List.mem_cons_self c cs)
    have ihr := ih (fun d hd => hx d (List.mem_cons_of_mem c hd))
    simp [List.takeWhile_cons, List.dropWhile_cons, hc, ihr.1, ihr.2]

/-- `takeWhile`/`dropWhile` on an all-`p` list. -/
theorem takeWhile_dropWhile_all (p : Char → Bool) (xs : List Char)
    (hx : ∀ c ∈ xs, p c = true) :
    xs.takeWhile p = xs ∧ xs.dropWhile p = [] := by
  induction xs with
  | nil => exact ⟨rfl, rfl⟩
  | cons c cs ih =>
    have hc := hx c (List.mem_cons_self c cs)
    have ihr := ih (fun d hd => hx d (List.mem_cons_of_mem c hd))
    simp [List.takeWhile_cons, List.dropWhile_cons, hc, ihr.1, ihr.2]

/-- The `float()` model on an all-digit, nonempty string. -/
theorem pyFloatMag_digits (cs : List Char) (h : isDigits cs = true) :
    pyFloatMag cs = some (digitsVal cs : ℚ) := by
  obtain ⟨hne, hall⟩ := and_true_split h
  have hmem : ∀ c ∈ cs, c.isDigit = true := List.all_eq_true.mp hall
  obtain ⟨ht, hd⟩ := takeWhile_dropWhile_all Char.isDigit cs hmem
  unfold pyFloatMag
  rw [ht, hd]
  dsimp only
  rw [if_neg (by simpa using hne)]

/-- The `float()` model on `digits.digits`. -/
theorem pyFloatMag_frac (a b : List Char)
    (ha : isDigits a = true) (hb : isDigits b = true) :
    pyFloatMag (a ++ '.' :: b)
      = some ((digitsVal a : ℚ) + (digitsVal b : ℚ) / 10 ^ b.length) := by
  obtain ⟨hane, haall⟩ := and_true_split ha
  obtain ⟨hbne, hball⟩ := and_true_split hb
  have hamem : ∀ c ∈ a, c.isDigit = true := List.all_eq_true.mp haall
  obtain ⟨ht, hd⟩ :=
    takeWhile_dropWhile_append Char.isDigit a '.' b hamem (by decide)
  unfold pyFloatMag
  rw [ht, hd]
  dsimp only
  rw [if_pos rfl, if_pos]
  rw [Bool.and_eq_true]
  refine ⟨hball, ?_⟩
  simp only [Bool.not_eq_eq_eq_not, Bool.not_true, Bool.and_eq_false_iff]
  left
  simpa using hane

/-- The `float()` model accepts a bare digit string. -/
theorem pyFloat_digits (a : List Char) (ha : isDigits a = true) :
    pyFloat a = some (digitsVal a : ℚ) := by
  obtain ⟨hane, haall⟩ := and_true_split ha
  have hamem : ∀ c ∈ a, c.isDigit = true := List.all_eq_true.mp haall
  have htrim : trimWs a = a :=
    trimWs_eq_self a (fun c hc => (isDigit_facts c (hamem c hc)).2.2.2.2)
  unfold pyFloat
  rw [htrim]
  rcases a with _ | ⟨c, rest⟩
  · simp at hane
  · have hc := hamem c (List.mem_cons_self c rest)
    dsimp only
    rw [if_neg (isDigit_facts c hc).1, if_neg (isDigit_facts c hc).2.1]
    exact pyFloatMag_digits _ ha

/-- The `float()` model accepts `digits.digits`. -/
theorem pyFloat_fracForm (a b : List Char)
    (ha : isDigits a = true) (hb : isDigits b = true) :
    pyFloat (a ++ '.' :: b)
      = some ((digitsVal a : ℚ) + (digitsVal b : ℚ) / 10 ^ b.length) := by
  obtain ⟨hane, haall⟩ := and_true_split ha
  obtain ⟨hbne, hball⟩ := and_true_split hb
  have hamem : ∀ c ∈ a, c.isDigit = true := List.all_eq_true.mp haall
  have hbmem : ∀ c ∈ b, c.isDigit = true := List.all_eq_true.mp hball
  have htrim : trimWs (a ++ '.' :: b) = a ++ '.' :: b := by
    refine trimWs_eq_self _ (fun c hc => ?_)
    rcases List.mem_append.mp hc with hca | hcb
    · exact (isDigit_facts c (hamem c hca)).2.2.2.2
    · rcases List.mem_cons.mp hcb with rfl | hcb2
      · decide
      · exact (isDigit_facts c (hbmem c hcb2)).2.2.2.2
  unfold pyFloat
  rw [htrim]
  rcases a with _ | ⟨c, rest⟩
  · simp at hane
  · have hc := hamem c (List.mem_cons_self c rest)
    rw [List.cons_append]
    dsimp only
    rw [if_neg (isDigit_facts c hc).1, if_neg (isDigit_facts c hc).2.1]
    rw [← List.cons_append]
    exact pyFloatMag_frac _ _ ha hb

/-- `splitOnChar` never returns the empty list of groups. -/
theorem splitOnChar_ne_nil (sep : Char) (cs : List Char) :
    splitOnChar sep cs ≠ [] := by
  induction cs with
  | nil => simp [splitOnChar]
  | cons c cs ih =>
    unfold splitOnChar
    rcases h : splitOnChar sep cs with _ | ⟨g, gs⟩
    · exact absurd h ih
    · dsimp only
      split_ifs <;> simp

/-- `splitOnChar` on a separator-free string is one group. -/
theorem splitOnChar_no_sep (sep : Char) (xs : List Char)
    (h : ∀ c ∈ xs, c ≠ sep) : splitOnChar sep xs = [xs] := by
  induction xs with
  | nil => rfl
  | cons c cs ih =>
    unfold splitOnChar
    rw [ih (fun d hd => h d (List.mem_cons_of_mem c hd))]
    dsimp only
    rw [if_neg (h c (List.mem_cons_self c cs))]

/-- `splitOnChar` peels off a separator-free prefix before a separator. -/
theorem splitOnChar_append (sep : Char) (xs ys : List Char)
    (h : ∀ c ∈ xs, c ≠ sep) :
    splitOnChar sep (xs ++ sep :: ys) = xs :: splitOnChar sep ys := by
  induction xs with
  | nil =>
    rw [List.nil_append]
    conv_lhs => unfold splitOnChar
    rcases hy : splitOnChar sep ys with _ | ⟨g, gs⟩
    · exact absurd hy (splitOnChar_ne_nil sep ys)
    · dsimp only
      rw [if_pos rfl]
  | cons c cs ih =>
    rw [List.cons_append]
    conv_lhs => unfold splitOnChar
    rw [ih (fun d hd => h d (List.mem_cons_of_mem c hd))]
    dsimp only
    rw [if_neg (h c (List.mem_cons_self c cs))]

/-- **C7** (counterexample to the claim as stated): `"1:-30"` is not of the
`[-+]HH:MM[:SS[.f]]` form — its minutes field carries a sign — yet the
parser accepts it, because Python's `int()` accepts signed fields; the
result is 1 h − 30 min = +1800 s, so not every string outside the valid
form signals an invalid-configuration error. -/
theorem time_period_str_accepts_nonform :
    specDurationForm "1:-30" = false
    ∧ time_period_str (.str "1:-30") = some 1800 := by
  constructor
  · rfl
  · show some (timedeltaSecs 1 (-30) 0) = some 1800
    unfold timedeltaSecs
    norm_num

/-- **C7** (amended): every string of the valid duration form — an
optional `+`/`-` prefix, all-digit hour and minute fields, and an optional
seconds field `SS[.f]` — parses to the signed sum of its components, and a
bare number signals an invalid-configuration error. (Not every string
outside this form errors, see `time_period_str_accepts_nonform`: fields
may carry their own signs.) -/
theorem time_period_str_valid_forms (pre h m : List Char)
    (sec : Option (List Char × Option (List Char)))
    (hpre : pre = [] ∨ pre = ['+'] ∨ pre = ['-'])
    (hh : isDigits h = true) (hm : isDigits m = true)
    (hsec : secWellFormed sec = true) :
    time_period_str (.str (String.mk (pre ++ h ++ ':' :: (m ++ secChars sec))))
      = some ((if pre = ['-'] then -1 else 1)
          * (3600 * (digitsVal h : ℚ) + 60 * (digitsVal m : ℚ) + secVal sec))
    ∧ (∀ q : ℚ, time_period_str (.num q) = none) := by
  obtain ⟨hhne, hhall⟩ := and_true_split hh
  obtain ⟨hmne, hmall⟩ := and_true_split hm
  have hhmem : ∀ c ∈ h, c.isDigit = true := List.all_eq_true.mp hhall
  have hmmem : ∀ c ∈ m, c.isDigit = true := List.all_eq_true.mp hmall
  refine ⟨?_, fun q => rfl⟩
  have hstrip : stripSign (pre ++ h ++ ':' :: (m ++ secChars sec))
      = (decide (pre = ['-']), h ++ ':' :: (m ++ secChars sec)) := by
    rcases hpre with rfl | rfl | rfl
    · simp only [List.nil_append]
      unfold stripSign
      rcases hhd : h with _ | ⟨c, rest⟩
      · rw [hhd] at hhne
        simp at hhne
      · have hc := hhmem c (by rw [hhd]; exact List.mem_cons_self c rest)
        rw [List.cons_append]
        dsimp only
        rw [if_neg (isDigit_facts c hc).1, if_neg (isDigit_facts c hc).2.1]
        simp
    · unfold stripSign
      rw [List.cons_append, List.cons_append]
      dsimp only
      rw [if_neg (by decide), if_pos rfl]
      simp
    · unfold stripSign
      rw [List.cons_append, List.cons_append]
      dsimp only
      rw [if_pos rfl]
      simp
  have hnocolon_h : ∀ c ∈ h, c ≠ ':' :=
    fun c hc => (isDigit_facts c (hhmem c hc)).2.2.1
  unfold time_period_str
  dsimp only [String.toList]
  rw [hstrip]
  dsimp only
  rcases hs : sec with _ | ⟨a, ob⟩
  · -- two fields: HH:MM
    have hsplit : splitOnChar ':' (h ++ ':' :: (m ++ secChars none))
        = [h, m] := by
      show splitOnChar ':' (h ++ ':' :: (m ++ [])) = [h, m]
      rw [List.append_nil, splitOnChar_append ':' h m hnocolon_h,
        splitOnChar_no_sep ':' m
          (fun c hc => (isDigit_facts c (hmmem c hc)).2.2.1)]
    rw [hsplit]
    dsimp only
    rw [pyInt_digits h hh, pyInt_digits m hm]
    dsimp only
    rcases hpm : decide (pre = ['-']) with _ | _
    · have hnp : ¬pre = ['-'] := of_decide_eq_false hpm
      rw [if_neg hnp]
      refine congrArg some ?_
      rw [if_neg (by simp)]
      unfold timedeltaSecs secVal
      push_cast
      ring
    · have hp : pre = ['-'] := of_decide_eq_true hpm
      rw [if_pos hp]
      refine congrArg some ?_
      rw [if_pos rfl]
      unfold timedeltaSecs secVal
      push_cast
      ring
  · -- three fields: HH:MM:SS[.f]
    have hsecb : secWellFormed (some (a, ob)) = true := by rw [← hs]; exact hsec
    rcases ob with _ | b
    · -- seconds field without a fraction
      have ha : isDigits a = true := hsecb
      have hamem : ∀ c ∈ a, c.isDigit = true :=
        List.all_eq_true.mp (and_true_split ha).2
      have hsplit : splitOnChar ':' (h ++ ':' :: (m ++ secChars (some (a, none))))
          = [h, m, a] := by
        show splitOnChar ':' (h ++ ':' :: (m ++ ':' :: a)) = [h, m, a]
        rw [splitOnChar_append ':' h _ hnocolon_h,
          splitOnChar_append ':' m _
            (fun c hc => (isDigit_facts c (hmmem c hc)).2.2.1),
          splitOnChar_no_sep ':' a
            (fun c hc => (isDigit_facts c (hamem c hc)).2.2.1)]
      rw [hsplit]
      dsimp only
      rw [pyInt_digits h hh, pyInt_digits m hm, pyFloat_digits a ha]
      dsimp only
      rcases hpm : decide (pre = ['-']) with _ | _
      · have hnp : ¬pre = ['-'] := of_decide_eq_false hpm
        rw [if_neg hnp]
        refine congrArg some ?_
        rw [if_neg (by simp)]
        unfold timedeltaSecs secVal
        push_cast
        ring
      · have hp : pre = ['-'] := of_decide_eq_true hpm
        rw [if_pos hp]
        refine congrArg some ?_
        rw [if_pos rfl]
        unfold timedeltaSecs secVal
        push_cast
        ring
    · -- seconds field with a fraction
      obtain ⟨ha, hb⟩ := and_true_split hsecb
      have hamem : ∀ c ∈ a, c.isDigit = true :=
        List.all_eq_true.mp (and_true_split ha).2
      have hbmem : ∀ c ∈ b, c.isDigit = true :=
        List.all_eq_true.mp (and_true_split hb).2
      have hnocolon_sec : ∀ c ∈ a ++ '.' :: b, c ≠ ':' := by
        intro c hc
        rcases List.mem_append.mp hc with hca | hcb
        · exact (isDigit_facts c (hamem c hca)).2.2.1
        · rcases List.mem_cons.mp hcb with rfl | hcb2
          · decide
          · exact (isDigit_facts c (hbmem c hcb2)).2.2.1
      have hsplit : splitOnChar ':'
            (h ++ ':' :: (m ++ secChars (some (a, some b))))
          = [h, m, a ++ '.' :: b] := by
        show splitOnChar ':' (h ++ ':' :: (m ++ ':' :: (a ++ '.' :: b)))
          = [h, m, a ++ '.' :: b]
        rw [splitOnChar_append ':' h _ hnocolon_h,
          splitOnChar_append ':' m _
            (fun c hc => (isDigit_facts c (hmmem c hc)).2.2.1),
          splitOnChar_no_sep ':' _ hnocolon_sec]
      rw [hsplit]
      dsimp only
      rw [pyInt_digits h hh, pyInt_digits m hm, pyFloat_fracForm a b ha hb]
      dsimp only
      rcases hpm : decide (pre = ['-']) with _ | _
      · have hnp : ¬pre = ['-'] := of_decide_eq_false hpm
        rw [if_neg hnp]
        refine congrArg some ?_
        rw [if_neg (by simp)]
        unfold timedeltaSecs secVal
        push_cast
        ring
      · have hp : pre = ['-'] := of_decide_eq_true hpm
        rw [if_pos hp]
        refine congrArg some ?_
        rw [if_pos rfl]
        unfold timedeltaSecs secVal
        push_cast
        ring

/-- Witness for **C7** (amended): `"-1:30:00"` parses to −5400 s (minus 90
minutes), and the bare number `90` is rejected. -/
theorem time_period_str_valid_forms_witness :
    time_period_str (.str "-1:30:00") = some (-5400)
    ∧ time_period_str (.num 90) = none := by
  have := time_period_str_valid_forms ['-'] ['1'] ['3', '0']
    (some (['0', '0'], none)) (Or.inr (Or.inr rfl)) (by decide) (by decide)
    (by decide)
  constructor
  · refine this.1.trans ?_
    have h1 : digitsVal ['1'] = 1 := rfl
    have h2 : digitsVal ['3', '0'] = 30 := rfl
    have h3 : secVal (some (['0', '0'], none)) = ((digitsVal ['0', '0'] : ℕ) : ℚ) := rfl
    have h4 : digitsVal ['0', '0'] = 0 := rfl
    rw [h1, h2, h3, h4]
    norm_num
  · exact this.2 90

/-- ASCII model of `str.lower()`. -/
def pyLower (cs : List Char) : List Char := cs.map Char.toLower

/-- `boolean` (config_validation.py lines 131-144): `bool`s pass through;
strings are lowercased, stripped and matched against the accepted tokens;
other numbers map to `value != 0`; anything else raises (`none`). -/
def boolean (value : PyValue) : Option Bool :=
  match value with
  | .bool b => some b
  | .str s =>
    let v := trimWs (pyLower s.toList)
    if v = "1".toList ∨ v = "true".toList ∨ v = "yes".toList
        ∨ v = "on".toList ∨ v = "enable".toList then some true
    else if v = "0".toList ∨ v = "false".toList ∨ v = "no".toList
        ∨ v = "off".toList ∨ v = "disable".toList then some false
    else none
  | .num q => some (decide (q ≠ 0))
  | .other => none

/-- **C8**: boolean coercion is case-insensitive on its accepted tokens
(any string whose lowercased, stripped form is one of
`{"1","true","yes","on","enable"}` maps to true, of
`{"0","false","no","off","disable"}` to false), maps a nonzero number to
true and zero to false, and is idempotent: feeding a result of `boolean`
back in (as a Python `bool`) returns it unchanged. -/
theorem boolean_tokens_and_idempotent (s : String) (q : ℚ) (x : PyValue)
    (b : Bool) (hq : q ≠ 0) (hx : boolean x = some b) :
    (trimWs (pyLower s.toList) ∈
        ["1".toList, "true".toList, "yes".toList, "on".toList, "enable".toList] →
      boolean (.str s) = some true)
    ∧ (trimWs (pyLower s.toList) ∈
        ["0".toList, "false".toList, "no".toList, "off".toList, "disable".toList] →
      boolean (.str s) = some false)
    ∧ boolean (.num q) = some true
    ∧ boolean (.num 0) = some false
    ∧ boolean (.bool b) = boolean x := by
  refine ⟨?_, ?_, by simp [boolean, hq], by simp [boolean], by rw [hx]; rfl⟩
  · intro hmem
    have hcond : trimWs (pyLower s.toList) = "1".toList
        ∨ trimWs (pyLower s.toList) = "true".toList
        ∨ trimWs (pyLower s.toList) = "yes".toList
        ∨ trimWs (pyLower s.toList) = "on".toList
        ∨ trimWs (pyLower s.toList) = "enable".toList := by
      simpa using hmem
    simp only [boolean]
    rw [if_pos hcond]
  · intro hmem
    have hcond : trimWs (pyLower s.toList) = "0".toList
        ∨ trimWs (pyLower s.toList) = "false".toList
        ∨ trimWs (pyLower s.toList) = "no".toList
        ∨ trimWs (pyLower s.toList) = "off".toList
        ∨ trimWs (pyLower s.toList) = "disable".toList := by
      simpa using hmem
    simp only [boolean]
    rcases hcond with hv | hv | hv | hv | hv <;> rw [hv] <;> rfl

/-- Witness for **C8**: `"TRUE"` (uppercase) coerces to true, `" Off "`
(mixed case, padded) to false, `5` to true, `0` to false, and re-feeding
the result of `boolean("Yes")` returns it unchanged. -/
theorem boolean_tokens_and_idempotent_witness :
    boolean (.str "TRUE") = some true
    ∧ boolean (.str " Off ") = some false
    ∧ boolean (.num 5) = some true
    ∧ boolean (.num 0) = some false
    ∧ boolean (.bool true) = boolean (.str "Yes") := by
  refine ⟨?_, ?_, ?_, ?_, ?_⟩
  · exact (boolean_tokens_and_idempotent "TRUE" 5 (.str "Yes") true
      (by norm_num) rfl).1 (by decide)
  · exact (boolean_tokens_and_idempotent " Off " 5 (.str "Yes") true
      (by norm_num) rfl).2.1 (by decide)
  · exact (boolean_tokens_and_idempotent "TRUE" 5 (.str "Yes") true
      (by norm_num) rfl).2.2.1
  · exact (boolean_tokens_and_idempotent "TRUE" 5 (.str "Yes") true
      (by norm_num) rfl).2.2.2.1
  · exact (boolean_tokens_and_idempotent "TRUE" 5 (.str "Yes") true
      (by norm_num) rfl).2.2.2.2

end Htknx
